import Mathlib

/-!
Verification of the core pipeline of the Dynamic NER app (`app.py`):
entity filtering, session snapshots, the model cache, text acquisition,
CSV/JSON export, and entity statistics.  Each Python fragment is embedded
as an executable Lean definition; theorems below settle the specified
properties against these definitions.
-/

namespace NERApp

open List

/-- One recognized entity mention, as produced by the spaCy model and
consumed throughout `app.py` (fields named after `ent.text`,
`ent.start_char`, `ent.end_char`, `ent.label_`). -/
structure EntitySpan where
  text : String
  start_char : Nat
  end_char : Nat
  label_ : String
deriving DecidableEq, Repr

/-- Line 135 of `app.py`:
`filtered_ents = [ent for ent in doc.ents if ent.label_ in st.session_state.selected_ents]`.
A Python list comprehension with a membership guard is `List.filter`. -/
def filtered_ents (ents : List EntitySpan) (selected_ents : List String) :
    List EntitySpan :=
  ents.filter (fun ent => ent.label_ ∈ selected_ents)

/-- Spec-side definition, written from the spec's words for §4.3: "keep only
spans whose `label ∈ allowed`, preserving relative order" — the subsequence
of the input whose labels are members of `allowed`. -/
def specFilterSubsequence (allowed : List String) :
    List EntitySpan → List EntitySpan
  | [] => []
  | ent :: rest =>
    if ent.label_ ∈ allowed then ent :: specFilterSubsequence allowed rest
    else specFilterSubsequence allowed rest

theorem filtered_ents_eq_spec (ents : List EntitySpan) (allowed : List String) :
    filtered_ents ents allowed = specFilterSubsequence allowed ents := by
  induction ents with
  | nil => rfl
  | cons e rest ih =>
    by_cases h : e.label_ ∈ allowed <;>
      simp [filtered_ents, specFilterSubsequence, h] at ih ⊢ <;>
      simpa [filtered_ents] using ih

/-- Claim C1: the entity filter returns exactly the subsequence of spans whose
label is in `allowed`, in the original relative order; the result is never
longer than the input; an empty `allowed` yields an empty output; and a label
in `allowed` matching no span contributes nothing. -/
theorem filter_correct (ents : List EntitySpan) (allowed : List String) :
    filtered_ents ents allowed = specFilterSubsequence allowed ents
    ∧ (filtered_ents ents allowed).Sublist ents
    ∧ (∀ ent ∈ filtered_ents ents allowed, ent.label_ ∈ allowed)
    ∧ (∀ ent ∈ ents, ent.label_ ∈ allowed → ent ∈ filtered_ents ents allowed)
    ∧ (filtered_ents ents allowed).length ≤ ents.length
    ∧ filtered_ents ents [] = []
    ∧ (∀ lab, lab ∉ ents.map (fun e => e.label_) →
        filtered_ents ents (allowed ++ [lab]) = filtered_ents ents allowed) := by
  refine ⟨filtered_ents_eq_spec ents allowed, List.filter_sublist ents, ?_, ?_, ?_, ?_, ?_⟩
  · intro ent hmem
    have := List.of_mem_filter hmem
    simpa using this
  · intro ent hmem hlab
    exact List.mem_filter.mpr ⟨hmem, by simpa using hlab⟩
  · exact List.length_filter_le _ ents
  · simp [filtered_ents]
  · intro lab hlab
    unfold filtered_ents
    apply List.filter_congr
    intro ent hent
    have hne : ent.label_ ≠ lab := by
      intro hcontra
      exact hlab (by simpa [hcontra] using List.mem_map_of_mem (fun e => e.label_) hent)
    simp [hne]

/-- Witness for C1 at concrete inputs: a PERSON span passes the filter when
PERSON is allowed, and an allowed label (FACULTY) matching no span changes
nothing. -/
theorem filter_correct_witness :
    (⟨"Alice", 0, 5, "PERSON"⟩ : EntitySpan).label_ ∈ ["PERSON"]
    ∧ (⟨"Alice", 0, 5, "PERSON"⟩ : EntitySpan)
        ∈ filtered_ents [⟨"Alice", 0, 5, "PERSON"⟩] ["PERSON"]
    ∧ filtered_ents [⟨"Alice", 0, 5, "PERSON"⟩] (["PERSON"] ++ ["FACULTY"])
        = filtered_ents [⟨"Alice", 0, 5, "PERSON"⟩] ["PERSON"] :=
  ⟨by decide,
   (filter_correct [⟨"Alice", 0, 5, "PERSON"⟩] ["PERSON"]).2.2.2.1
     ⟨"Alice", 0, 5, "PERSON"⟩ (by decide) (by decide),
   (filter_correct [⟨"Alice", 0, 5, "PERSON"⟩] ["PERSON"]).2.2.2.2.2.2
     "FACULTY" (by decide)⟩

/-! ## Model loading and caching (lines 77-87 of `app.py`) -/

/-- Outcome of a call into an external Python library: a normal return or a
raised exception (carrying the exception's message). -/
inductive PyOutcome (α : Type) where
  | ok (val : α)
  | raised (exc : String)
deriving DecidableEq, Repr

/-- Lines 78-82, the body of `load_model` without the cache decorator:
`spacy.load(name)` wrapped in try/except, returning `None` on any failure.
The external `spacy.load` behavior is a parameter. -/
def load_model_body {M : Type} (spacy_load : String → PyOutcome M)
    (name : String) : Option M :=
  match spacy_load name with
  | .ok m => some m
  | .raised _ => none

/-- State of the `st.cache_resource` cache wrapping `load_model` (line 77):
a mapping from argument to cached return value, plus a counter of how many
times the decorated body actually ran (the expensive loading side-effect).
A dict holds at most one binding per key and insertion order is irrelevant
to lookups, so new bindings are consed on. -/
structure ModelCache (M : Type) where
  entries : List (String × Option M)
  bodyRuns : Nat
deriving DecidableEq, Repr

/-- The cached `load_model` call (lines 77-84): on a cache hit return the
stored value without running the body; on a miss run the body once and
store its result. -/
def load_model {M : Type} (spacy_load : String → PyOutcome M) (name : String)
    (cache : ModelCache M) : Option M × ModelCache M :=
  match cache.entries.lookup name with
  | some v => (v, cache)
  | none =>
    let v := load_model_body spacy_load name
    (v, ⟨(name, v) :: cache.entries, cache.bodyRuns + 1⟩)

/-- Claim C5: model loading is idempotent and cached per id.  A second
sequential `load_model` with the same id returns exactly the first call's
result (the previously loaded instance, hence identical extraction output)
and leaves the cache untouched, so the loading body runs at most once per
id: one call adds at most one body run and the repeat call adds none. -/
theorem load_model_cached_idempotent {M : Type}
    (spacy_load : String → PyOutcome M) (name : String) (cache : ModelCache M) :
    load_model spacy_load name (load_model spacy_load name cache).2
      = load_model spacy_load name cache
    ∧ ((load_model spacy_load name cache).2).bodyRuns ≤ cache.bodyRuns + 1 := by
  constructor
  · unfold load_model
    cases h : cache.entries.lookup name with
    | some v => simp [h]
    | none => simp [h, List.lookup]
  · unfold load_model
    cases h : cache.entries.lookup name <;> simp [h]

/-! ## CSV / JSON export (lines 137-140 and 182-192 of `app.py`) -/

/-- Line 139: the DataFrame column names. -/
def dfColumns : List String := ["Text", "Start", "End", "Label"]

/-- Line 138: the row built for one entity,
`(ent.text, ent.start_char, ent.end_char, ent.label_)`, as CSV cells. -/
def dfRow (ent : EntitySpan) : List String :=
  [ent.text, toString ent.start_char, toString ent.end_char, ent.label_]

/-- Line 185, `df_filtered.to_csv(index=False)`: the header row followed by
one row per entity, modelled at the level of cell rows. -/
def to_csv (rows : List EntitySpan) : List (List String) :=
  dfColumns :: rows.map dfRow

/-- The rendered CSV header line: pandas joins the column names with commas. -/
def csvHeaderLine : String := String.intercalate "," dfColumns

/-- A JSON scalar value appearing in the record export. -/
inductive JValue where
  | str (s : String)
  | num (n : Nat)
deriving DecidableEq, Repr

/-- Lines 145 and 189, `df.to_dict(orient="records")` for one row: a record
holding the four columns, in column order, with numeric offsets. -/
def entityRecord (ent : EntitySpan) : List (String × JValue) :=
  [("Text", .str ent.text), ("Start", .num ent.start_char),
   ("End", .num ent.end_char), ("Label", .str ent.label_)]

/-- Line 189, `json.dumps(df_filtered.to_dict(orient="records"))`: the JSON
export is the array of per-row records. -/
def to_json_records (rows : List EntitySpan) : List (List (String × JValue)) :=
  rows.map entityRecord

/-- Claim C4: the CSV export's header row and column order are exactly
`Text,Start,End,Label`; each data row carries the four fields of one span in
that order; the JSON export is an array of records with the same four fields
in the same order. -/
theorem export_format (rows : List EntitySpan) :
    csvHeaderLine = "Text,Start,End,Label"
    ∧ (to_csv rows).head? = some ["Text", "Start", "End", "Label"]
    ∧ to_csv rows
        = ["Text", "Start", "End", "Label"]
          :: rows.map (fun ent =>
            [ent.text, toString ent.start_char, toString ent.end_char,
             ent.label_])
    ∧ to_json_records rows
        = rows.map (fun ent =>
            [("Text", JValue.str ent.text), ("Start", JValue.num ent.start_char),
             ("End", JValue.num ent.end_char), ("Label", JValue.str ent.label_)])
    ∧ (to_json_records rows).map (fun r => r.map Prod.fst)
        = rows.map (fun _ => ["Text", "Start", "End", "Label"]) := by
  refine ⟨by decide, rfl, rfl, rfl, ?_⟩
  induction rows with
  | nil => rfl
  | cons e rest ih => simpa [to_json_records, entityRecord] using ih

/-! ## One run of the extraction script (lines 84-155 of `app.py`) -/

/-- A session snapshot as built on lines 143-148: the source text, the
DataFrame records of the filtered entities (which carry exactly the four
fields of each span), the selected label list, and the model identifier. -/
structure Snapshot where
  text : String
  entities : List EntitySpan
  selected_ents : List String
  model : String
deriving DecidableEq, Repr

/-- A loaded NLP model: given a text, the ordered entity spans it emits
(`doc.ents` on line 132).  The model itself is an external black box. -/
def NLPModel : Type := String → List EntitySpan

/-- The inputs visible to one script run: the sidebar model choice, whether
the extract button was pressed, the acquired text, and the live
`st.session_state.selected_ents` value. -/
structure ScriptInput where
  model_choice : String
  extract_button : Bool
  text : String
  selected_ents : List String

/-- The observable outcome of one script run. -/
structure ScriptResult where
  saved_sessions : List Snapshot
  halted : Bool
  model_error_shown : Bool
  extraction_ran : Bool

/-- Lines 84-149: if `load_model` returned `None`, show a sidebar error and
`st.stop()` (lines 85-87) — the run halts with the store untouched, no
extraction and no fallback model.  Otherwise, if the button was pressed and
the text is non-empty (Python truthiness of `extract_button and text`,
line 130), run the model over the text, filter by the selected labels
(line 135) and append a snapshot (lines 143-149); else do nothing. -/
def runScript (loadResult : Option NLPModel) (inp : ScriptInput)
    (saved_sessions : List Snapshot) : ScriptResult :=
  match loadResult with
  | none =>
    { saved_sessions := saved_sessions, halted := true,
      model_error_shown := true, extraction_ran := false }
  | some nlp =>
    if inp.extract_button = true ∧ inp.text ≠ "" then
      let filtered := filtered_ents (nlp inp.text) inp.selected_ents
      { saved_sessions := saved_sessions
          ++ [⟨inp.text, filtered, inp.selected_ents, inp.model_choice⟩],
        halted := false, model_error_shown := false, extraction_ran := true }
    else
      { saved_sessions := saved_sessions, halted := false,
        model_error_shown := false, extraction_ran := false }

/-- Claim C6: when the requested model cannot be loaded, the condition is
surfaced (sidebar error), the run halts before extracting, no snapshot is
recorded, and no other model is silently used instead. -/
theorem model_unavailable_halts (inp : ScriptInput) (sessions : List Snapshot)
    (loadResult : Option NLPModel) (h : loadResult = none) :
    (runScript loadResult inp sessions).halted = true
    ∧ (runScript loadResult inp sessions).model_error_shown = true
    ∧ (runScript loadResult inp sessions).extraction_ran = false
    ∧ (runScript loadResult inp sessions).saved_sessions = sessions := by
  subst h
  simp [runScript]

/-- Witness for C6: a failed load with the button pressed over non-empty
text still halts with an error and an unchanged (empty) store. -/
theorem model_unavailable_halts_witness :
    (runScript none ⟨"en_core_web_sm", true, "Alice works.", ["PERSON"]⟩ []).halted
        = true
    ∧ (runScript none ⟨"en_core_web_sm", true, "Alice works.", ["PERSON"]⟩
          []).model_error_shown = true
    ∧ (runScript none ⟨"en_core_web_sm", true, "Alice works.", ["PERSON"]⟩
          []).extraction_ran = false
    ∧ (runScript none ⟨"en_core_web_sm", true, "Alice works.", ["PERSON"]⟩
          []).saved_sessions = [] :=
  model_unavailable_halts ⟨"en_core_web_sm", true, "Alice works.", ["PERSON"]⟩
    [] none rfl

/-- Claim C10: pressing the extract button over empty text performs no
extraction and appends no snapshot — `if extract_button and text:` on
line 130 is false because the empty string is falsy in Python. -/
theorem empty_text_no_snapshot (loadResult : Option NLPModel)
    (inp : ScriptInput) (sessions : List Snapshot) (h : inp.text = "") :
    (runScript loadResult inp sessions).saved_sessions = sessions
    ∧ (runScript loadResult inp sessions).extraction_ran = false := by
  match loadResult with
  | none => simp [runScript]
  | some nlp => simp [runScript, h]

/-- Witness for C10: the button pressed over empty text with a loaded model
leaves the store empty and runs no extraction. -/
theorem empty_text_no_snapshot_witness :
    (runScript (some (fun _ => [⟨"Alice", 0, 5, "PERSON"⟩]))
          ⟨"en_core_web_sm", true, "", ["PERSON"]⟩ []).saved_sessions = []
    ∧ (runScript (some (fun _ => [⟨"Alice", 0, 5, "PERSON"⟩]))
          ⟨"en_core_web_sm", true, "", ["PERSON"]⟩ []).extraction_ran = false :=
  empty_text_no_snapshot (some (fun _ => [⟨"Alice", 0, 5, "PERSON"⟩]))
    ⟨"en_core_web_sm", true, "", ["PERSON"]⟩ [] rfl

/-! ## The snapshot invariant (claim C7) -/

/-- The spec's snapshot invariant: every stored entity's label is a member
of the snapshot's stored label set. -/
def snapInv (snap : Snapshot) : Prop :=
  ∀ ent ∈ snap.entities, ent.label_ ∈ snap.selected_ents

/-- The session store after a whole sequence of script runs, starting from
the initial empty store (lines 44-45), each run with its own model-load
outcome and inputs. -/
def runTrace (steps : List (Option NLPModel × ScriptInput)) : List Snapshot :=
  steps.foldl (fun sessions step => (runScript step.1 step.2 sessions).saved_sessions)
    []

theorem runScript_preserves_snapInv (loadResult : Option NLPModel)
    (inp : ScriptInput) (sessions : List Snapshot)
    (h : ∀ snap ∈ sessions, snapInv snap) :
    ∀ snap ∈ (runScript loadResult inp sessions).saved_sessions, snapInv snap := by
  match loadResult with
  | none => simpa [runScript] using h
  | some nlp =>
    by_cases hc : inp.extract_button = true ∧ inp.text ≠ ""
    · intro snap hmem
      simp only [runScript, if_pos hc, List.mem_append, List.mem_singleton] at hmem
      rcases hmem with hold | hnew
      · exact h snap hold
      · subst hnew
        intro ent hent
        exact (filter_correct (nlp inp.text) inp.selected_ents).2.2.1 ent hent
    · simpa [runScript, if_neg hc] using h

/-- Claim C7: every snapshot ever appended to the store satisfies the
invariant that each stored entity's label is a member of the snapshot's
stored label set — the filter is applied before recording. -/
theorem snapshots_satisfy_invariant (steps : List (Option NLPModel × ScriptInput)) :
    ∀ snap ∈ runTrace steps, snapInv snap := by
  suffices hgen : ∀ (start : List Snapshot), (∀ snap ∈ start, snapInv snap) →
      ∀ snap ∈ steps.foldl
        (fun sessions step => (runScript step.1 step.2 sessions).saved_sessions)
        start, snapInv snap by
    exact hgen [] (by simp)
  induction steps with
  | nil => intro start h; simpa using h
  | cons step rest ih =>
    intro start h
    exact ih _ (runScript_preserves_snapInv step.1 step.2 start h)

/-- Witness for C7: one run over "Alice works." with a model emitting a
PERSON span and PERSON selected yields a store whose snapshot contains the
span, and the theorem applied there gives the label's membership. -/
theorem snapshots_satisfy_invariant_witness :
    (⟨"Alice", 0, 5, "PERSON"⟩ : EntitySpan).label_
      ∈ (⟨"Alice works.", [⟨"Alice", 0, 5, "PERSON"⟩], ["PERSON"],
          "en_core_web_sm"⟩ : Snapshot).selected_ents :=
  snapshots_satisfy_invariant
    [(some (fun _ => [⟨"Alice", 0, 5, "PERSON"⟩]),
      ⟨"en_core_web_sm", true, "Alice works.", ["PERSON"]⟩)]
    ⟨"Alice works.", [⟨"Alice", 0, 5, "PERSON"⟩], ["PERSON"], "en_core_web_sm"⟩
    (by decide) ⟨"Alice", 0, 5, "PERSON"⟩ (by decide)

/-! ## The session store operations (claim C8) -/

/-- Line 232: `st.session_state.saved_sessions[::-1]` — the saved-sessions
tab iterates the store newest first.  Python slicing builds a new list and
does not mutate the original. -/
def list_newest_first (sessions : List Snapshot) : List Snapshot :=
  sessions.reverse

/-- Lines 237-239: pressing "Load session" rebinds the live selection to the
chosen snapshot's stored label set and redisplays its text; the store itself
is only read.  Takes the current (store, live selection) and the displayed
index, returns the new (store, live selection). -/
def recall_session (sessions : List Snapshot) (selected_ents : List String) (i : Nat) :
    List Snapshot × List String :=
  match (list_newest_first sessions).get? i with
  | some snap => (sessions, snap.selected_ents)
  | none => (sessions, selected_ents)

/-- Claim C8: the store is append-only.  Listing returns exactly the reverse
insertion order (a fresh append makes the new snapshot first); `recall`
leaves the store untouched, so listing before and after it is identical; a
script run never shrinks the store; and the only change a run can make is
appending one new snapshot. -/
theorem session_store_append_only (sessions : List Snapshot)
    (selected : List String) (i : Nat) (snap : Snapshot)
    (loadResult : Option NLPModel) (inp : ScriptInput) :
    list_newest_first sessions = sessions.reverse
    ∧ list_newest_first (sessions ++ [snap]) = snap :: list_newest_first sessions
    ∧ (recall_session sessions selected i).1 = sessions
    ∧ list_newest_first (recall_session sessions selected i).1 = list_newest_first sessions
    ∧ sessions.length ≤ (runScript loadResult inp sessions).saved_sessions.length
    ∧ ((runScript loadResult inp sessions).saved_sessions = sessions
        ∨ ∃ newSnap, (runScript loadResult inp sessions).saved_sessions
            = sessions ++ [newSnap]) := by
  have hrec : (recall_session sessions selected i).1 = sessions := by
    unfold recall_session
    cases h : (list_newest_first sessions).get? i <;> simp [h]
  refine ⟨rfl, by simp [list_newest_first], hrec, by rw [hrec], ?_, ?_⟩
  · match loadResult with
    | none => simp [runScript]
    | some nlp =>
      by_cases hc : inp.extract_button = true ∧ inp.text ≠ "" <;>
        simp [runScript, hc]
  · match loadResult with
    | none => exact Or.inl rfl
    | some nlp =>
      by_cases hc : inp.extract_button = true ∧ inp.text ≠ ""
      · exact Or.inr ⟨⟨inp.text, filtered_ents (nlp inp.text) inp.selected_ents,
          inp.selected_ents, inp.model_choice⟩, by simp [runScript, hc]⟩
      · exact Or.inl (by simp [runScript, hc])

/-! ## Reference semantics of the recorded label set (claim C2)

Line 146 stores `"selected_ents": st.session_state.selected_ents` into the
snapshot dict — the Python list object itself, with no copy.  To settle the
aliasing claim the live selection and the snapshots' stored label sets are
modelled with an explicit heap of list objects. -/

/-- The heap of allocated label-list objects, the reference currently bound
to `st.session_state.selected_ents`, and, for each recorded snapshot, the
reference its `selected_ents` entry holds (line 146). -/
structure SelectionHeap where
  heap : List (List String)
  selected_ref : Nat
  snapshot_refs : List Nat
deriving DecidableEq, Repr

/-- Well-formedness: the live reference and every stored snapshot reference
point into the heap. -/
def SelectionHeap.WF (s : SelectionHeap) : Prop :=
  s.selected_ref < s.heap.length ∧ ∀ r ∈ s.snapshot_refs, r < s.heap.length

/-- Lines 143-149: recording a snapshot stores the live reference itself
(no `.copy()` and no `list(...)` appears on line 146). -/
def record_snapshot (s : SelectionHeap) : SelectionHeap :=
  { s with snapshot_refs := s.snapshot_refs ++ [s.selected_ref] }

/-- Lines 116 and 121: every selection update the program performs rebinds
`st.session_state.selected_ents` to a freshly allocated list object
(`st.multiselect` returns a new list; `entity_options.copy()` copies).  No
existing heap cell is written. -/
def rebind_selection (s : SelectionHeap) (newList : List String) : SelectionHeap :=
  { s with heap := s.heap ++ [newList], selected_ref := s.heap.length }

/-- An in-place mutation of the live list object (Python permits e.g.
`st.session_state.selected_ents.append(...)` or `.clear()`): the heap cell
the live reference points to is overwritten.  The program itself never
performs this operation. -/
def mutate_selection_in_place (s : SelectionHeap) (newContents : List String) :
    SelectionHeap :=
  { s with heap := s.heap.set s.selected_ref newContents }

/-- The label set stored in snapshot `i`: the contents of the heap cell the
snapshot's stored reference points to. -/
def snapshot_label_set (s : SelectionHeap) (i : Nat) : List String :=
  s.heap.getD (s.snapshot_refs.getD i 0) []

/-- Counterexample to claim C2 as stated: line 146 stores a shared reference
rather than a copy, so an in-place mutation of the live label-selection list
changes the previously recorded snapshot's stored label set.  Concretely:
with the live selection `["PERSON"]`, record a snapshot, then mutate the
live list in place to `["ORG"]` — the snapshot's stored label set becomes
`["ORG"]`. -/
theorem snapshot_shares_reference_counterexample :
    snapshot_label_set
        (mutate_selection_in_place (record_snapshot ⟨[["PERSON"]], 0, []⟩) ["ORG"]) 0
      = ["ORG"]
    ∧ snapshot_label_set (record_snapshot ⟨[["PERSON"]], 0, []⟩) 0 = ["PERSON"]
    ∧ (["ORG"] : List String) ≠ ["PERSON"] := by
  decide

/-- Claim C2 amended: the snapshot stores a shared reference to the live
selection list rather than a copy, so an in-place mutation of the live list
would change the stored snapshot; however, every selection update the
program actually performs rebinds the live variable to a freshly allocated
list, and such rebinding leaves every previously recorded snapshot's stored
label set unchanged. -/
theorem snapshot_stable_under_rebinding (s : SelectionHeap)
    (newList : List String) (i : Nat) (hwf : s.WF)
    (hi : i < (record_snapshot s).snapshot_refs.length) :
    snapshot_label_set (rebind_selection (record_snapshot s) newList) i
      = snapshot_label_set (record_snapshot s) i := by
  have hbound : (record_snapshot s).snapshot_refs.getD i 0 < s.heap.length := by
    have hmem : (record_snapshot s).snapshot_refs.getD i 0
        ∈ (record_snapshot s).snapshot_refs := by
      rw [List.getD_eq_getElem _ 0 hi]
      exact List.getElem_mem hi
    have hmem2 := List.mem_append.mp
      (show (record_snapshot s).snapshot_refs.getD i 0
          ∈ s.snapshot_refs ++ [s.selected_ref] from hmem)
    rcases hmem2 with h | h
    · exact hwf.2 _ h
    · rw [List.mem_singleton.mp h]
      exact hwf.1
  unfold snapshot_label_set rebind_selection
  simpa [record_snapshot] using
    List.getD_append s.heap [newList] [] _ hbound

/-- Witness for C2's amended theorem at a concrete state: one heap cell
`["PERSON"]`, the snapshot recorded, then the selection rebound to
`["ORG"]` — the snapshot's stored label set is unchanged. -/
theorem snapshot_stable_under_rebinding_witness :
    snapshot_label_set
        (rebind_selection (record_snapshot ⟨[["PERSON"]], 0, []⟩) ["ORG"]) 0
      = snapshot_label_set (record_snapshot ⟨[["PERSON"]], 0, []⟩) 0 :=
  snapshot_stable_under_rebinding ⟨[["PERSON"]], 0, []⟩ ["ORG"] 0
    (by constructor
        · decide
        · intro r hr
          simp at hr)
    (by simp [record_snapshot])

/-! ## Text acquisition (lines 19-36 and 94-106 of `app.py`) -/

/-- A UTF-8 continuation byte: `0x80`-`0xBF`. -/
def isCont (b : Nat) : Bool := 128 ≤ b && b ≤ 191

/-- CPython's strict UTF-8 decoder, `bytes.decode("utf-8")` with the default
`errors="strict"`: the decoded code points, or `none` on any malformed
input (stray continuation bytes, truncated sequences, overlong forms,
surrogates and out-of-range values are all rejected). -/
def utf8Decode : List Nat → Option (List Nat)
  | [] => some []
  | b :: rest =>
    if b ≤ 127 then (utf8Decode rest).map (fun cps => b :: cps)
    else if 194 ≤ b && b ≤ 223 then
      match rest with
      | c1 :: rest1 =>
        if isCont c1 then
          (utf8Decode rest1).map (fun cps => ((b - 192) * 64 + (c1 - 128)) :: cps)
        else none
      | [] => none
    else if 224 ≤ b && b ≤ 239 then
      match rest with
      | c1 :: c2 :: rest2 =>
        if (if b = 224 then 160 else 128) ≤ c1
            && c1 ≤ (if b = 237 then 159 else 191) && isCont c2 then
          (utf8Decode rest2).map
            (fun cps => ((b - 224) * 4096 + (c1 - 128) * 64 + (c2 - 128)) :: cps)
        else none
      | _ => none
    else if 240 ≤ b && b ≤ 244 then
      match rest with
      | c1 :: c2 :: c3 :: rest3 =>
        if (if b = 240 then 144 else 128) ≤ c1
            && c1 ≤ (if b = 244 then 143 else 191) && isCont c2 && isCont c3 then
          (utf8Decode rest3).map
            (fun cps => ((b - 240) * 262144 + (c1 - 128) * 4096
              + (c2 - 128) * 64 + (c3 - 128)) :: cps)
        else none
      | _ => none
    else none

/-- The code points of a Lean string, used for the literal error strings the
extractors return. -/
def strCodes (s : String) : List Nat := s.data.map Char.toNat

/-- Lines 19-28, `extract_text_from_pdf`: join the per-page texts with
newlines (`page.extract_text() or ""` makes a text-free page contribute an
empty string); any parser exception is caught and becomes the returned
error string.  The external PyPDF2 behavior is a parameter. -/
def extract_text_from_pdf (parseResult : PyOutcome (List (List Nat))) :
    List Nat :=
  match parseResult with
  | .ok pages => List.intercalate [10] pages
  | .raised e => strCodes ("[PDF extraction error] " ++ e)

/-- Lines 30-36, `extract_text_from_docx`: join the paragraph texts with
newlines; any parser exception is caught and becomes the returned error
string.  The external python-docx behavior is a parameter. -/
def extract_text_from_docx (parseResult : PyOutcome (List (List Nat))) :
    List Nat :=
  match parseResult with
  | .ok paragraphs => List.intercalate [10] paragraphs
  | .raised e => strCodes ("[DOCX extraction error] " ++ e)

/-- Python `str.split(sep)` for a one-character separator, over the
string's characters: CPython returns at least one piece and keeps empty
pieces between adjacent separators. -/
def splitOnChar (sep : Char) : List Char → List (List Char)
  | [] => [[]]
  | c :: rest =>
    match splitOnChar sep rest with
    | [] => if c = sep then [[], []] else [[c]]
    | w :: ws => if c = sep then [] :: w :: ws else (c :: w) :: ws

/-- Line 97: `uploaded_file.name.split('.')[-1].lower()`. -/
def fileExt (name : String) : String :=
  String.mk (((splitOnChar '.' name.data).getLastD []).map Char.toLower)

/-- Lines 96-103: text acquisition for an uploaded file.  PDF and DOCX go
through the exception-catching extractors; any other extension is treated
as plain text and decoded by `uploaded_file.getvalue().decode("utf-8")` —
which line 103 does NOT wrap in try/except, so a decoding failure is a
raised `UnicodeDecodeError`, not a returned string. -/
def acquire_uploaded_text (name : String) (contents : List Nat)
    (pdfResult docxResult : PyOutcome (List (List Nat))) :
    PyOutcome (List Nat) :=
  if fileExt name = "pdf" then .ok (extract_text_from_pdf pdfResult)
  else if fileExt name = "docx" then .ok (extract_text_from_docx docxResult)
  else
    match utf8Decode contents with
    | some cps => .ok cps
    | none => .raised "UnicodeDecodeError"

/-- Claim C3 (code bug): uploading `bad.txt` whose single byte `0xFF` is not
valid UTF-8 makes text acquisition raise an uncaught `UnicodeDecodeError`
(line 103 has no try/except), instead of returning an extraction-error
string as the spec requires and as the PDF/DOCX branches do. -/
theorem txt_decode_failure_raises
    (pdfResult docxResult : PyOutcome (List (List Nat))) :
    utf8Decode [255] = none
    ∧ acquire_uploaded_text "bad.txt" [255] pdfResult docxResult
        = .raised "UnicodeDecodeError" := by
  refine ⟨by decide, ?_⟩
  have hext : fileExt "bad.txt" = "txt" := by decide
  have hdec : utf8Decode [255] = none := by decide
  simp [acquire_uploaded_text, hext, hdec]

/-! ## Entity statistics (lines 211-222 of `app.py`)

Line 214 builds `Counter([ent.label_ for ent in filtered_ents])`; line 215
turns `entity_counts.items()` into the rows of `df_counts`; line 222
displays `df_counts.sort_values("Count", ascending=False)`.  A Python
`Counter` is a dict, so `items()` lists each distinct label once, in order
of first appearance, with its occurrence count.  For `ascending=False`,
pandas' `nargsort` reverses the column values and their positions, computes
an ascending argsort, and reverses the resulting indexer; on the
at-most-14-row tables this app can produce (the label vocabulary of lines
55-70 has 14 entries) the ascending argsort is numpy's stable insertion
sort, so the two reversals cancel on tied rows: the displayed table is
sorted descending by count with ties kept in original (first-appearance)
order. -/

/-- The key order of a Python dict/`Counter` built from a list of labels:
each distinct label once, in order of first appearance. -/
def counterKeys : List String → List String
  | [] => []
  | lab :: rest => lab :: (counterKeys rest).filter (fun k => k ≠ lab)

/-- Line 214/215: `Counter(labels).items()` — each distinct label with its
occurrence count, keys in first-appearance order. -/
def entity_counts (labels : List String) : List (String × Nat) :=
  (counterKeys labels).map (fun lab => (lab, labels.count lab))

/-- One step of a stable ascending insertion sort by count: the row goes
before the first row whose count is not smaller, so earlier rows stay
before later rows of equal count. -/
def insertAscByCount (row : String × Nat) :
    List (String × Nat) → List (String × Nat)
  | [] => [row]
  | r :: rest =>
    if row.2 ≤ r.2 then row :: r :: rest else r :: insertAscByCount row rest

/-- The stable ascending sort by count (numpy's insertion sort, which its
argsort uses outright on arrays this small). -/
def sortAscByCount (rows : List (String × Nat)) : List (String × Nat) :=
  rows.foldr insertAscByCount []

/-- Line 222, `df_counts.sort_values("Count", ascending=False)`: pandas'
`nargsort` reverses the rows, ascending-argsorts them stably, and reverses
the result, yielding the stable descending order — sorted descending by
count, tied rows in their original relative order. -/
def sort_values_count_desc (rows : List (String × Nat)) :
    List (String × Nat) :=
  (sortAscByCount rows.reverse).reverse

/-- The displayed Stats table (lines 214-222) for the filtered entities. -/
def df_counts_table (ents : List EntitySpan) : List (String × Nat) :=
  sort_values_count_desc (entity_counts (ents.map (fun e => e.label_)))

theorem insertAscByCount_perm (x : String × Nat) (l : List (String × Nat)) :
    insertAscByCount x l ~ x :: l := by
  induction l with
  | nil => exact List.Perm.refl _
  | cons y rest ih =>
    by_cases h : x.2 ≤ y.2
    · simp [insertAscByCount, h]
    · simp only [insertAscByCount, if_neg h]
      calc y :: insertAscByCount x rest ~ y :: x :: rest := ih.cons y
        _ ~ x :: y :: rest := List.Perm.swap x y rest

theorem sortAscByCount_perm (rows : List (String × Nat)) :
    sortAscByCount rows ~ rows := by
  induction rows with
  | nil => exact List.Perm.refl _
  | cons r rest ih =>
    calc sortAscByCount (r :: rest)
        = insertAscByCount r (sortAscByCount rest) := rfl
      _ ~ r :: sortAscByCount rest := insertAscByCount_perm r _
      _ ~ r :: rest := ih.cons r

theorem insertAscByCount_pairwise
    (tie : String × Nat → String × Nat → Prop)
    (x : String × Nat) (l : List (String × Nat))
    (hl : l.Pairwise (fun a b => a.2 < b.2 ∨ (a.2 = b.2 ∧ tie a b)))
    (hx : ∀ y ∈ l, x.2 = y.2 → tie x y) :
    (insertAscByCount x l).Pairwise
      (fun a b => a.2 < b.2 ∨ (a.2 = b.2 ∧ tie a b)) := by
  induction l with
  | nil => simp [insertAscByCount]
  | cons y rest ih =>
    rcases List.pairwise_cons.mp hl with ⟨hy, hrest⟩
    by_cases h : x.2 ≤ y.2
    · simp only [insertAscByCount, if_pos h]
      refine List.pairwise_cons.mpr ⟨?_, hl⟩
      intro z hz
      rcases List.mem_cons.mp hz with rfl | hz'
      · rcases Nat.lt_or_ge x.2 z.2 with hlt | hge
        · exact Or.inl hlt
        · have he : x.2 = z.2 := Nat.le_antisymm h hge
          exact Or.inr ⟨he, hx z (by simp) he⟩
      · have hyz2 : y.2 ≤ z.2 := by
          rcases hy z hz' with h1 | h1
          · exact Nat.le_of_lt h1
          · exact Nat.le_of_eq h1.1
        rcases Nat.lt_or_ge x.2 z.2 with hlt | hge
        · exact Or.inl hlt
        · have he : x.2 = z.2 := Nat.le_antisymm (Nat.le_trans h hyz2) hge
          exact Or.inr ⟨he, hx z (by simp [hz']) he⟩
    · simp only [insertAscByCount, if_neg h]
      refine List.pairwise_cons.mpr
        ⟨?_, ih hrest (fun z hz he => hx z (by simp [hz]) he)⟩
      intro z hz
      have hz' : z = x ∨ z ∈ rest := by
        have := (insertAscByCount_perm x rest).mem_iff.mp hz
        simpa using this
      rcases hz' with rfl | hz'
      · exact Or.inl (Nat.not_le.mp h)
      · exact hy z hz'

theorem sortAscByCount_pairwise
    (tie : String × Nat → String × Nat → Prop)
    (rows : List (String × Nat))
    (h : rows.Pairwise (fun a b => a.2 = b.2 → tie a b)) :
    (sortAscByCount rows).Pairwise
      (fun a b => a.2 < b.2 ∨ (a.2 = b.2 ∧ tie a b)) := by
  induction rows with
  | nil => simp [sortAscByCount]
  | cons r rest ih =>
    rcases List.pairwise_cons.mp h with ⟨hr, hrest⟩
    refine insertAscByCount_pairwise tie r _ (ih hrest) ?_
    intro y hy he
    exact hr y ((sortAscByCount_perm rest).mem_iff.mp hy) he

theorem mem_counterKeys (L : List String) (k : String) :
    k ∈ counterKeys L ↔ k ∈ L := by
  induction L with
  | nil => simp [counterKeys]
  | cons lab rest ih =>
    simp only [counterKeys, List.mem_cons, List.mem_filter]
    constructor
    · rintro (rfl | ⟨hk, _⟩)
      · exact Or.inl rfl
      · exact Or.inr (ih.mp hk)
    · rintro (rfl | hk)
      · exact Or.inl rfl
      · by_cases he : k = lab
        · exact Or.inl he
        · exact Or.inr ⟨ih.mpr hk, by simp [he]⟩

theorem counterKeys_nodup (L : List String) : (counterKeys L).Nodup := by
  induction L with
  | nil => simp [counterKeys]
  | cons lab rest ih =>
    simp only [counterKeys, List.nodup_cons]
    refine ⟨?_, ih.filter _⟩
    intro hmem
    have := (List.mem_filter.mp hmem).2
    simp at this

theorem counterKeys_indexOf_pairwise (L : List String) :
    (counterKeys L).Pairwise (fun k1 k2 => L.indexOf k1 < L.indexOf k2) := by
  induction L with
  | nil => simp [counterKeys]
  | cons lab rest ih =>
    simp only [counterKeys]
    refine List.pairwise_cons.mpr ⟨?_, ?_⟩
    · intro k hk
      have hne : k ≠ lab := by
        have := (List.mem_filter.mp hk).2
        simpa using this
      rw [List.indexOf_cons_self, List.indexOf_cons_ne _ (Ne.symm hne)]
      exact Nat.succ_pos _
    · have hsub : ((counterKeys rest).filter (fun k => k ≠ lab)).Pairwise
          (fun k1 k2 => rest.indexOf k1 < rest.indexOf k2) :=
        ih.sublist (List.filter_sublist _)
      refine List.Pairwise.imp_of_mem ?_ hsub
      intro a b ha hb hab
      have hnea : a ≠ lab := by
        have := (List.mem_filter.mp ha).2
        simpa using this
      have hneb : b ≠ lab := by
        have := (List.mem_filter.mp hb).2
        simpa using this
      rw [List.indexOf_cons_ne _ (Ne.symm hnea),
        List.indexOf_cons_ne _ (Ne.symm hneb)]
      exact Nat.succ_lt_succ hab

/-- Claim C9: the statistics map each label occurring among the spans to
its occurrence count (each distinct label appears exactly once, with both
membership directions and no duplicate keys); the displayed table is a
permutation of those rows, sorted descending by count with ties broken by
the label's first-appearance order in the input sequence (a stable sort). -/
theorem stats_counts_and_table (ents : List EntitySpan) :
    (∀ lab ∈ ents.map (fun e => e.label_),
        (lab, (ents.map (fun e => e.label_)).count lab)
          ∈ entity_counts (ents.map (fun e => e.label_)))
    ∧ (∀ p ∈ entity_counts (ents.map (fun e => e.label_)),
        p.1 ∈ ents.map (fun e => e.label_)
          ∧ p.2 = (ents.map (fun e => e.label_)).count p.1)
    ∧ ((entity_counts (ents.map (fun e => e.label_))).map Prod.fst).Nodup
    ∧ df_counts_table ents ~ entity_counts (ents.map (fun e => e.label_))
    ∧ (df_counts_table ents).Pairwise (fun a b =>
        b.2 < a.2 ∨ (a.2 = b.2
          ∧ (ents.map (fun e => e.label_)).indexOf a.1
              < (ents.map (fun e => e.label_)).indexOf b.1)) := by
  refine ⟨?_, ?_, ?_, ?_, ?_⟩
  · intro lab hlab
    exact List.mem_map.mpr ⟨lab, (mem_counterKeys _ lab).mpr hlab, rfl⟩
  · intro p hp
    rcases List.mem_map.mp hp with ⟨lab, hlab, rfl⟩
    exact ⟨(mem_counterKeys _ lab).mp hlab, rfl⟩
  · have hkeys : (entity_counts (ents.map (fun e => e.label_))).map Prod.fst
        = counterKeys (ents.map (fun e => e.label_)) := by
      rw [entity_counts, List.map_map]
      exact List.map_id _
    rw [hkeys]
    exact counterKeys_nodup _
  · exact Trans.trans
      (Trans.trans
        ((sortAscByCount
            (entity_counts (ents.map (fun e => e.label_))).reverse).reverse_perm)
        (sortAscByCount_perm _))
      ((entity_counts (ents.map (fun e => e.label_))).reverse_perm)
  · have hkey : (entity_counts (ents.map (fun e => e.label_))).Pairwise
        (fun a b =>
          (ents.map (fun e => e.label_)).indexOf a.1
            < (ents.map (fun e => e.label_)).indexOf b.1) := by
      rw [entity_counts, List.pairwise_map]
      exact counterKeys_indexOf_pairwise (ents.map (fun e => e.label_))
    have hbase : (entity_counts (ents.map (fun e => e.label_))).reverse.Pairwise
        (fun a b => a.2 = b.2 →
          (ents.map (fun e => e.label_)).indexOf b.1
            < (ents.map (fun e => e.label_)).indexOf a.1) := by
      rw [List.pairwise_reverse]
      refine List.Pairwise.imp ?_ hkey
      intro a b h _
      exact h
    have hsorted := sortAscByCount_pairwise
      (fun a b =>
        (ents.map (fun e => e.label_)).indexOf b.1
          < (ents.map (fun e => e.label_)).indexOf a.1)
      (entity_counts (ents.map (fun e => e.label_))).reverse hbase
    show (sortAscByCount
        (entity_counts (ents.map (fun e => e.label_))).reverse).reverse.Pairwise _
    rw [List.pairwise_reverse]
    exact hsorted.imp (fun {a b} h => h.imp id (fun hh => ⟨hh.1.symm, hh.2⟩))

/-- Witness for C9 at the spec's scenario (§8.6): applying the theorem at
the Alice/PERSON, Paris/GPE spans puts ("PERSON", 1) in the counts, and the
displayed table there evaluates to PERSON first, GPE second — descending by
count with the tie kept in first-appearance order. -/
theorem stats_counts_and_table_witness :
    ("PERSON", 1)
      ∈ entity_counts
        (([⟨"Alice", 0, 5, "PERSON"⟩, ⟨"Paris", 28, 33, "GPE"⟩] :
          List EntitySpan).map (fun e => e.label_))
    ∧ df_counts_table [⟨"Alice", 0, 5, "PERSON"⟩, ⟨"Paris", 28, 33, "GPE"⟩]
        = [("PERSON", 1), ("GPE", 1)] :=
  ⟨(stats_counts_and_table
        [⟨"Alice", 0, 5, "PERSON"⟩, ⟨"Paris", 28, 33, "GPE"⟩]).1
      "PERSON" (by decide),
   by decide⟩

end NERApp
